import Mathlib

/-!
# Verification of the `AnimalShelter` data-access layer

Shallow embedding of `src/GraziosoDashboard/animal_Shelter.py`, a thin
CRUD + aggregation wrapper over a MongoDB collection of animal records.

Modelling choices:
* A document is an association list from field name to `Value`
  (Python dicts have unique keys; MongoDB documents are ordered field maps).
* The collection handle is `Option Store`: `none` is the disconnected state
  produced when the constructor's `except PyMongoError` branch sets
  `self.collection = None`.
* The store keeps the list of documents plus a fresh-ObjectId counter:
  `insert_one` stamps a fresh `_id` on documents that lack one.
* The unique index `idx_animal_id` created in `__init__`
  (`create_index([("animal_id", ASCENDING)], unique=True)`) is embedded as
  the duplicate-key failure of `insert_one` and of `update_many`: an
  operation that would give two documents the same `animal_id` value raises
  a store-level error (`PyMongoError`).  As in MongoDB, a missing indexed
  field is indexed as null.
* Python exceptions are embedded as `Except Err`: `_ensure_connection`
  raises `RuntimeError`, store failures raise `PyMongoError`, and the
  `try/except (PyMongoError, RuntimeError)` block of each public method
  catches both and returns the benign default.  `create`'s
  `ValueError("Nothing to save, data is empty")` is raised before the
  `try` block and therefore propagates.
-/

/-- A BSON-ish field value.  `oid` is a store-generated ObjectId; `null`
doubles as the value of a missing field, as MongoDB's index/group semantics
treat missing fields. -/
inductive Value where
  | str (s : String)
  | int (n : Int)
  | bool (b : Bool)
  | null
  | oid (n : Nat)
deriving DecidableEq, Repr

/-- A document: ordered field map, as a Python dict / BSON document. -/
abbrev Doc := List (String × Value)

/-- A filter mapping (equality conditions), and also a `$set` payload. -/
abbrev Query := List (String × Value)

/-- Value of field `k` in document `d`; missing fields read as `null`
(MongoDB's behaviour for index keys, `$group` keys and `{k: null}` filters). -/
def docValue (d : Doc) (k : String) : Value :=
  (d.lookup k).getD Value.null

/-- MongoDB equality-filter semantics for a filter mapping: every listed
field must hold the listed value (missing fields match `null`).  The empty
filter matches every document. -/
def matches_ (q : Query) (d : Doc) : Bool :=
  q.all fun kv => docValue d kv.1 == kv.2

/-- The `animal_id` index key of a document. -/
def idOf (d : Doc) : Value := docValue d "animal_id"

/-- The projection `\x7b"_id": False\x7d` used by `read`: drop the
store-internal identity field. -/
def stripId (d : Doc) : Doc :=
  d.filter fun kv => kv.1 ≠ "_id"

/-- The `$set` of a single field: overwrite if present, append if absent. -/
def setField (d : Doc) (k : String) (v : Value) : Doc :=
  if d.lookup k = none then d ++ [(k, v)]
  else d.map fun kv => if kv.1 = k then (k, v) else kv

/-- The `$set` payload applied in full: listed fields overwritten, unlisted fields untouched. -/
def setFields (nv : Query) (d : Doc) : Doc :=
  nv.foldl (fun d kv => setField d kv.1 kv.2) d

/-- The underlying collection: its documents plus a fresh-ObjectId counter. -/
structure Store where
  docs : List Doc
  nextOid : Nat
deriving DecidableEq, Repr

/-- The Python exceptions the module raises or catches. -/
inductive Err where
  | runtimeError
  | pyMongoError
  | valueError
deriving DecidableEq, Repr

/-- Embedding of `AnimalShelter._ensure_connection`: raises `RuntimeError` when
`self.collection is None`. -/
def ensureConnection (st : Option Store) : Except Err Store :=
  match st with
  | none => .error .runtimeError
  | some s => .ok s

/-- The `insert_one` call stamps a fresh `_id` on a document that lacks one. -/
def addOid (n : Nat) (d : Doc) : Doc :=
  if d.lookup "_id" = none then ("_id", Value.oid n) :: d else d

/-- Semantics of `collection.insert_one(data)` under the unique index `idx_animal_id`:
fails with a duplicate-key `PyMongoError` when an existing document holds
the same `animal_id` index key. -/
def insertOne (s : Store) (data : Doc) : Except Err Store :=
  let newDoc := addOid s.nextOid data
  if s.docs.any (fun e => idOf e == idOf newDoc) then .error .pyMongoError
  else .ok ⟨s.docs ++ [newDoc], s.nextOid + 1⟩

/-- Embedding of `AnimalShelter.create(data)`.  Raises `ValueError` on empty input
before the `try` block; inside it, `RuntimeError`/`PyMongoError` are
caught and turned into `False`.  Returns the success flag and the
post-state. -/
def create (st : Option Store) (data : Doc) : Except Err (Bool × Option Store) :=
  if data = [] then .error .valueError
  else
    match ensureConnection st with
    | .error _ => .ok (false, st)
    | .ok s =>
      match insertOne s data with
      | .error _ => .ok (false, st)
      | .ok s' => .ok (true, some s')

/-- Semantics of the `collection.find(q, \x7b"_id": False\x7d)` call: matching documents in store
order, identity field stripped. -/
def find_ (s : Store) (q : Query) : List Doc :=
  (s.docs.filter (matches_ q)).map stripId

/-- Embedding of `AnimalShelter.read(query=None)`.  `q = query or {}`; a missing
connection is caught and turned into `[]`. -/
def read (st : Option Store) (query : Option Query) : Except Err (List Doc) :=
  match ensureConnection st with
  | .error _ => .ok []
  | .ok s => .ok (find_ s (query.getD []))

/-- Embedding of `AnimalShelter.read_all(query=None)`: delegates to `read`. -/
def read_all (st : Option Store) (query : Option Query) : Except Err (List Doc) :=
  read st query

/-- Semantics of `collection.update_many(q, \x7b"$set": nv\x7d)` under the unique index,
processed document by document.  `prev` holds the already-processed
documents (needed for the duplicate-key check).  Returns the resulting
document list, the modified count, and whether a duplicate-key error was
raised (in which case the remaining documents are left untouched, as the
server stops at the failing document). -/
def updateManyGo (q nv : Query) : List Doc → List Doc → List Doc × Nat × Bool
  | _, [] => ([], 0, false)
  | prev, d :: rest =>
    if matches_ q d then
      if setFields nv d = d then
        -- matched but nothing changes: not counted in modified_count
        let res := updateManyGo q nv (prev ++ [d]) rest
        (d :: res.1, res.2.1, res.2.2)
      else if idOf (setFields nv d) ≠ idOf d ∧
          (prev ++ rest).any (fun x => idOf x == idOf (setFields nv d)) then
        -- duplicate-key error on idx_animal_id: stop, leave d and rest untouched
        (d :: rest, 0, true)
      else
        let res := updateManyGo q nv (prev ++ [setFields nv d]) rest
        (setFields nv d :: res.1, res.2.1 + 1, res.2.2)
    else
      let res := updateManyGo q nv (prev ++ [d]) rest
      (d :: res.1, res.2.1, res.2.2)

/-- Embedding of `AnimalShelter.update(query, new_values)`: returns
`update_result.modified_count`, or `0` when the connection is absent or the
store raises (both caught). -/
def update (st : Option Store) (q nv : Query) : Except Err (Nat × Option Store) :=
  match ensureConnection st with
  | .error _ => .ok (0, st)
  | .ok s =>
    let res := updateManyGo q nv [] s.docs
    .ok (if res.2.2 then 0 else res.2.1, some ⟨res.1, s.nextOid⟩)

/-- Embedding of `AnimalShelter.delete(query)`: `collection.delete_many(query)` removes
every matching document and reports `deleted_count`; a missing connection
is caught and turned into `0`. -/
def delete (st : Option Store) (q : Query) : Except Err (Nat × Option Store) :=
  match ensureConnection st with
  | .error _ => .ok (0, st)
  | .ok s =>
    .ok (s.docs.countP (matches_ q),
         some ⟨s.docs.filter (fun d => !matches_ q d), s.nextOid⟩)

/-- The `outcome_type` group key of a document (missing groups as null). -/
def outcomeOf (d : Doc) : Value := docValue d "outcome_type"

/-- One output document of the `$group` stage. -/
def mkGroup (k : Value) (n : Int) : Doc :=
  [("_id", k), ("count", Value.int n)]

/-- The `$group` stage of the pipeline (group key `$outcome_type`, `count`
summing 1): one output document per distinct group key, holding the group's
size. -/
def groupStage (docs : List Doc) : List Doc :=
  (docs.map outcomeOf).dedup.map fun k =>
    mkGroup k (docs.countP fun d => outcomeOf d == k)

/-- The `count` field of a group document, as an integer. -/
def countOf (g : Doc) : Int :=
  match docValue g "count" with
  | .int n => n
  | _ => 0

/-- One insertion step of the sort used to embed the `$sort` stage. -/
def insertByCount (g : Doc) : List Doc → List Doc
  | [] => [g]
  | h :: t => if countOf h ≤ countOf g then g :: h :: t else h :: insertByCount g t

/-- The `$sort` stage (by `count`, direction -1): a sort descending by
`count`.  The server guarantees the ordering only up to ties, so any
sorting algorithm is a faithful embedding; insertion sort is used. -/
def sortStage : List Doc → List Doc
  | [] => []
  | g :: gs => insertByCount g (sortStage gs)

/-- Embedding of `AnimalShelter.get_outcome_type_counts()`: the two-stage aggregation
pipeline; a missing connection is caught and turned into `[]`. -/
def get_outcome_type_counts (st : Option Store) : Except Err (List Doc) :=
  match ensureConnection st with
  | .error _ => .ok []
  | .ok s => .ok (sortStage (groupStage s.docs))

/-- Outcome of the connection attempt in `__init__`: either the client,
database, collection and indexes are obtained (over some existing
collection contents), or some step raises `PyMongoError`. -/
inductive SetupOutcome where
  | connected (docs : List Doc)
  | failed
deriving DecidableEq, Repr

/-- The body of the `try` block in `__init__`: obtain the collection
handle and ensure the three indexes, or raise `PyMongoError`. -/
def connectAndIndex : SetupOutcome → Except Err Store
  | .connected docs => .ok ⟨docs, 0⟩
  | .failed => .error .pyMongoError

/-- Embedding of `AnimalShelter.__init__`: the `except PyMongoError` branch logs and
sets `self.collection = None`, so construction itself never raises. -/
def initShelter (o : SetupOutcome) : Option Store :=
  match connectAndIndex o with
  | .ok s => some s
  | .error _ => none

/-- Uniqueness of `animal_id` across the stored documents: the invariant
the unique index `idx_animal_id` maintains. -/
def uniqueIds (docs : List Doc) : Prop :=
  (docs.map idOf).Nodup

/-- The invariant lifted to the (possibly disconnected) handle. -/
def uniqueIdsOpt : Option Store → Prop
  | none => True
  | some s => uniqueIds s.docs

/-! ## Shared sample data for witnesses -/

/-- A sample dog document as stored (with its `_id`). -/
def dogDoc : Doc :=
  [("_id", Value.oid 0), ("animal_id", Value.int 1),
   ("animal_type", Value.str "Dog"), ("breed", Value.str "Mix")]

/-- A sample cat document as stored (with its `_id`). -/
def catDoc : Doc :=
  [("_id", Value.oid 1), ("animal_id", Value.int 2),
   ("animal_type", Value.str "Cat"), ("outcome_type", Value.str "Adoption")]

/-- A sample connected store holding the dog and the cat. -/
def sampleStore : Store := ⟨[dogDoc, catDoc], 2⟩

/-! ## Theorems -/

/-- **C1.** When the collection handle is absent (disconnected state),
every public operation returns its benign default without raising:
`create` returns false, `read` returns an empty sequence, `update`
returns 0, `delete` returns 0, and `get_outcome_type_counts` returns an
empty sequence.  (The non-empty-input validation of `create`, which fires
before the connection check, is covered separately.) -/
theorem disconnected_ops_return_defaults (q nv : Query) (query : Option Query)
    (data : Doc) (h : data ≠ []) :
    create none data = Except.ok (false, none) ∧
    read none query = Except.ok [] ∧
    update none q nv = Except.ok (0, none) ∧
    delete none q = Except.ok (0, none) ∧
    get_outcome_type_counts none = Except.ok [] := by
  refine ⟨?_, rfl, rfl, rfl, rfl⟩
  simp [create, h, ensureConnection]

/-- Witness for C1 at a concrete nonempty record. -/
theorem disconnected_ops_return_defaults_witness :
    create none [("animal_type", Value.str "Dog")] = Except.ok (false, none) ∧
    read none (some [("breed", Value.str "Mix")]) = Except.ok [] ∧
    update none [("animal_type", Value.str "Dog")] [("breed", Value.str "Lab")]
      = Except.ok (0, none) ∧
    delete none [("animal_type", Value.str "Dog")] = Except.ok (0, none) ∧
    get_outcome_type_counts none = Except.ok [] :=
  disconnected_ops_return_defaults [("animal_type", Value.str "Dog")]
    [("breed", Value.str "Lab")] (some [("breed", Value.str "Mix")])
    [("animal_type", Value.str "Dog")] (by decide)

/-- **C2.** For every state of the handle, `create` signals the
invalid-input `ValueError` exactly on the empty mapping; otherwise it
returns normally — and `read`, `update`, `delete` and
`get_outcome_type_counts` always return normally, so the empty-record
validation on `create` is the only failure any public operation
propagates. -/
theorem create_empty_sole_propagated_failure (st : Option Store) (data : Doc)
    (q nv : Query) (query : Option Query) :
    (create st data = Except.error Err.valueError ↔ data = []) ∧
    (create st data = Except.error Err.valueError ∨
      ∃ r, create st data = Except.ok r) ∧
    (∃ r, read st query = Except.ok r) ∧
    (∃ r, update st q nv = Except.ok r) ∧
    (∃ r, delete st q = Except.ok r) ∧
    (∃ r, get_outcome_type_counts st = Except.ok r) := by
  have hok : ∀ (st : Option Store) (data : Doc), data ≠ [] →
      ∃ r, create st data = Except.ok r := by
    intro st data hne
    cases st with
    | none => exact ⟨(false, none), by simp [create, hne, ensureConnection]⟩
    | some s =>
      cases hins : insertOne s data with
      | error e =>
        exact ⟨(false, some s), by simp [create, hne, ensureConnection, hins]⟩
      | ok s' =>
        exact ⟨(true, some s'), by simp [create, hne, ensureConnection, hins]⟩
  refine ⟨⟨?_, ?_⟩, ?_, ?_, ?_, ?_, ?_⟩
  · intro h
    by_contra hne
    obtain ⟨r, hr⟩ := hok st data hne
    rw [hr] at h
    exact Except.noConfusion h
  · intro h
    simp [create, h]
  · by_cases hne : data = []
    · exact Or.inl (by simp [create, hne])
    · exact Or.inr (hok st data hne)
  · cases st <;> exact ⟨_, rfl⟩
  · cases st <;> exact ⟨_, rfl⟩
  · cases st <;> exact ⟨_, rfl⟩
  · cases st <;> exact ⟨_, rfl⟩

/-- **C9.** For every state of the store, `read_all()`, `read(None)` and
`read({})` are equivalent: they return the same sequence of records. -/
theorem read_all_read_none_read_empty_equiv (st : Option Store) :
    read_all st none = read st none ∧
    read st none = read st (some []) ∧
    read_all st none = read st (some []) := by
  cases st <;> exact ⟨rfl, rfl, rfl⟩

/-- **C8.** Construction never propagates a connectivity failure: the
constructor is a total function into the handle state (it returns, never
raises), on failure it leaves the collection handle unset (`none`), and
the failure is thereby deferred to the first operation, which returns its
benign default. -/
theorem construction_defers_connectivity_failure (o : SetupOutcome)
    (q nv : Query) (query : Option Query) (data : Doc) (h : data ≠ []) :
    (connectAndIndex o = Except.error Err.pyMongoError → initShelter o = none) ∧
    initShelter SetupOutcome.failed = none ∧
    create (initShelter SetupOutcome.failed) data = Except.ok (false, none) ∧
    read (initShelter SetupOutcome.failed) query = Except.ok [] ∧
    update (initShelter SetupOutcome.failed) q nv = Except.ok (0, none) ∧
    delete (initShelter SetupOutcome.failed) q = Except.ok (0, none) ∧
    get_outcome_type_counts (initShelter SetupOutcome.failed) = Except.ok [] := by
  refine ⟨?_, rfl, ?_, rfl, rfl, rfl, rfl⟩
  · intro he
    cases o with
    | connected docs => exact Except.noConfusion he
    | failed => rfl
  · simp [initShelter, connectAndIndex, create, h, ensureConnection]

/-- Witness for C8 at a concrete nonempty record. -/
theorem construction_defers_connectivity_failure_witness :
    (connectAndIndex SetupOutcome.failed = Except.error Err.pyMongoError →
      initShelter SetupOutcome.failed = none) ∧
    initShelter SetupOutcome.failed = none ∧
    create (initShelter SetupOutcome.failed) [("animal_id", Value.int 7)]
      = Except.ok (false, none) ∧
    read (initShelter SetupOutcome.failed) none = Except.ok [] ∧
    update (initShelter SetupOutcome.failed) [] [] = Except.ok (0, none) ∧
    delete (initShelter SetupOutcome.failed) [] = Except.ok (0, none) ∧
    get_outcome_type_counts (initShelter SetupOutcome.failed) = Except.ok [] :=
  construction_defers_connectivity_failure SetupOutcome.failed [] [] none
    [("animal_id", Value.int 7)] (by decide)

/-- Helper: the projection really removes the identity field. -/
lemma stripId_lookup_id (d : Doc) : (stripId d).lookup "_id" = none := by
  induction d with
  | nil => rfl
  | cons kv rest ih =>
    by_cases h : kv.1 = "_id"
    · simpa [stripId, List.filter_cons, h] using ih
    · have hne : ("_id" == kv.1) = false := by
        simpa [beq_iff_eq] using fun he => h he.symm
      simpa [stripId, List.filter_cons, h, List.lookup, hne] using ih

/-- Helper: the empty filter matches every document. -/
lemma matches_nil (d : Doc) : matches_ [] d = true := rfl

/-- Helper: `find_` with the empty filter returns every document, stripped. -/
lemma find_nil (s : Store) : find_ s [] = s.docs.map stripId := by
  unfold find_
  rw [List.filter_eq_self.2 fun a _ => matches_nil a]

/-- **C3.** For every connected store and filter mapping, `read` returns
exactly the records matching the filter, each with the store-internal
identity field stripped; an absent or empty filter returns all records. -/
theorem read_returns_matching_stripped (s : Store) (q : Query) (r d : Doc)
    (hr : r ∈ find_ s q) (hd : d ∈ s.docs) (hm : matches_ q d = true) :
    read (some s) (some q) = Except.ok (find_ s q) ∧
    r.lookup "_id" = none ∧
    stripId d ∈ find_ s q ∧
    (∃ dd ∈ s.docs, matches_ q dd = true ∧ r = stripId dd) ∧
    read (some s) none = Except.ok (s.docs.map stripId) ∧
    read (some s) (some []) = Except.ok (s.docs.map stripId) := by
  obtain ⟨dd, hdd, hrdd⟩ := List.mem_map.1 hr
  have hdd' := List.mem_filter.1 hdd
  refine ⟨rfl, ?_, ?_, ⟨dd, hdd'.1, hdd'.2, hrdd.symm⟩, ?_, ?_⟩
  · rw [← hrdd]; exact stripId_lookup_id dd
  · exact List.mem_map_of_mem _ (List.mem_filter.2 ⟨hd, hm⟩)
  · show Except.ok (find_ s []) = _
    rw [find_nil]
  · show Except.ok (find_ s []) = _
    rw [find_nil]

/-- Witness for C3 on the sample store with the dog filter. -/
theorem read_returns_matching_stripped_witness :
    stripId dogDoc ∈ find_ sampleStore [("animal_type", Value.str "Dog")] ∧
    dogDoc ∈ sampleStore.docs ∧
    matches_ [("animal_type", Value.str "Dog")] dogDoc = true ∧
    (read (some sampleStore) (some [("animal_type", Value.str "Dog")])
        = Except.ok (find_ sampleStore [("animal_type", Value.str "Dog")]) ∧
      (stripId dogDoc).lookup "_id" = none ∧
      stripId dogDoc ∈ find_ sampleStore [("animal_type", Value.str "Dog")] ∧
      (∃ dd ∈ sampleStore.docs,
        matches_ [("animal_type", Value.str "Dog")] dd = true ∧
          stripId dogDoc = stripId dd) ∧
      read (some sampleStore) none = Except.ok (sampleStore.docs.map stripId) ∧
      read (some sampleStore) (some [])
        = Except.ok (sampleStore.docs.map stripId)) :=
  ⟨by decide, by decide, by decide,
    read_returns_matching_stripped sampleStore [("animal_type", Value.str "Dog")]
      (stripId dogDoc) dogDoc (by decide) (by decide) (by decide)⟩

/-- Helper: matched count plus surviving length is the original length. -/
lemma countP_add_length_filter_not (l : List Doc) (p : Doc → Bool) :
    l.countP p + (l.filter fun a => !p a).length = l.length := by
  induction l with
  | nil => rfl
  | cons a l ih =>
    cases h : p a <;> simp [List.countP_cons, List.filter_cons, h] <;> omega

/-- **C5.** For every connected store and filter mapping, `delete` removes
exactly the matching records and returns their count (so a subsequent
`read` with the same filter is empty); on a missing connection it
returns 0. -/
theorem delete_removes_exactly_matching (s s' : Store) (q : Query) (n : Nat)
    (d : Doc) (h : delete (some s) q = Except.ok (n, some s'))
    (hd : d ∈ s.docs) (hnm : matches_ q d = false) :
    n + s'.docs.length = s.docs.length ∧
    s'.docs.Sublist s.docs ∧
    (∀ e ∈ s'.docs, matches_ q e = false) ∧
    d ∈ s'.docs ∧
    read (some s') (some q) = Except.ok [] ∧
    delete none q = Except.ok (0, none) := by
  have h' : n = s.docs.countP (matches_ q) ∧
      s' = ⟨s.docs.filter fun e => !matches_ q e, s.nextOid⟩ := by
    have := h
    simp only [delete, ensureConnection, Except.ok.injEq, Prod.mk.injEq,
      Option.some.injEq] at this
    exact ⟨this.1.symm, this.2.symm⟩
  obtain ⟨hn, hs'⟩ := h'
  subst hn hs'
  refine ⟨countP_add_length_filter_not _ _, List.filter_sublist _, ?_, ?_, ?_, rfl⟩
  · intro e he
    have := (List.mem_filter.1 he).2
    simpa using this
  · exact List.mem_filter.2 ⟨hd, by simp [hnm]⟩
  · show Except.ok (find_ _ q) = _
    unfold find_
    simp only [List.filter_filter]
    rw [List.filter_eq_nil_iff.2 (by intro a _; simp)]
    rfl

/-- Witness for C5: deleting the dogs from the sample store. -/
theorem delete_removes_exactly_matching_witness :
    delete (some sampleStore) [("animal_type", Value.str "Dog")]
      = Except.ok (1, some ⟨[catDoc], 2⟩) ∧
    catDoc ∈ sampleStore.docs ∧
    matches_ [("animal_type", Value.str "Dog")] catDoc = false ∧
    (1 + ([catDoc] : List Doc).length = sampleStore.docs.length ∧
      ([catDoc] : List Doc).Sublist sampleStore.docs ∧
      (∀ e ∈ ([catDoc] : List Doc),
        matches_ [("animal_type", Value.str "Dog")] e = false) ∧
      catDoc ∈ ([catDoc] : List Doc) ∧
      read (some ⟨[catDoc], 2⟩) (some [("animal_type", Value.str "Dog")])
        = Except.ok [] ∧
      delete none [("animal_type", Value.str "Dog")] = Except.ok (0, none)) :=
  ⟨rfl, by decide, by decide,
    delete_removes_exactly_matching sampleStore ⟨[catDoc], 2⟩
      [("animal_type", Value.str "Dog")] 1 catDoc rfl (by decide)
      (by decide)⟩

/-- Helper: one insertion step permutes. -/
lemma insertByCount_perm (g : Doc) (l : List Doc) :
    (insertByCount g l).Perm (g :: l) := by
  induction l with
  | nil => exact List.Perm.refl _
  | cons h t ih =>
    by_cases hc : countOf h ≤ countOf g
    · simp [insertByCount, hc]
    · simp only [insertByCount, if_neg hc]
      exact (ih.cons h).trans (List.Perm.swap g h t)

/-- Helper: the `$sort` stage permutes its input. -/
lemma sortStage_perm (l : List Doc) : (sortStage l).Perm l := by
  induction l with
  | nil => exact List.Perm.refl _
  | cons g gs ih =>
    exact (insertByCount_perm g (sortStage gs)).trans (ih.cons g)

/-- Helper: one insertion step preserves descending-by-count order. -/
lemma insertByCount_pairwise (g : Doc) (l : List Doc)
    (hl : l.Pairwise fun a b => countOf b ≤ countOf a) :
    (insertByCount g l).Pairwise fun a b => countOf b ≤ countOf a := by
  induction l with
  | nil => simp [insertByCount]
  | cons h t ih =>
    rcases List.pairwise_cons.1 hl with ⟨hh, ht⟩
    by_cases hc : countOf h ≤ countOf g
    · simp only [insertByCount, if_pos hc]
      refine List.pairwise_cons.2 ⟨?_, hl⟩
      intro x hx
      rcases List.mem_cons.1 hx with rfl | hx
      · exact hc
      · exact le_trans (hh x hx) hc
    · simp only [insertByCount, if_neg hc]
      refine List.pairwise_cons.2 ⟨?_, ih ht⟩
      intro x hx
      have hx' := (insertByCount_perm g t).mem_iff.1 hx
      rcases List.mem_cons.1 hx' with rfl | hx'
      · omega
      · exact hh x hx'

/-- Helper: the `$sort` stage output is descending by count. -/
lemma sortStage_pairwise (l : List Doc) :
    (sortStage l).Pairwise fun a b => countOf b ≤ countOf a := by
  induction l with
  | nil => simp [sortStage]
  | cons g gs ih => exact insertByCount_pairwise g _ ih

/-- Helper: membership in the `$group` stage output. -/
lemma mem_groupStage (docs : List Doc) (g : Doc) :
    g ∈ groupStage docs ↔
      ∃ k, k ∈ docs.map outcomeOf ∧
        g = mkGroup k (docs.countP fun d => outcomeOf d == k) := by
  unfold groupStage
  rw [List.mem_map]
  constructor
  · rintro ⟨k, hk, rfl⟩
    exact ⟨k, List.mem_dedup.1 hk, rfl⟩
  · rintro ⟨k, hk, rfl⟩
    exact ⟨k, List.mem_dedup.2 hk, rfl⟩

/-- **C7.** For every connected store, `get_outcome_type_counts` groups
all records by `outcome_type`, counts the records in each group, and
returns the groups sorted by count in descending order (one group per
distinct outcome value). -/
theorem outcome_counts_grouped_sorted (s : Store) (gs : List Doc) (k : Value)
    (n : Nat) (h : get_outcome_type_counts (some s) = Except.ok gs) :
    List.Pairwise (fun a b => countOf b ≤ countOf a) gs ∧
    gs.Perm (groupStage s.docs) ∧
    (mkGroup k n ∈ gs ↔
      k ∈ s.docs.map outcomeOf ∧
        n = s.docs.countP fun d => outcomeOf d == k) ∧
    gs.length = (s.docs.map outcomeOf).dedup.length := by
  have hgs : gs = sortStage (groupStage s.docs) := by
    simpa [get_outcome_type_counts, ensureConnection] using h.symm
  subst hgs
  have hperm : (sortStage (groupStage s.docs)).Perm (groupStage s.docs) :=
    sortStage_perm _
  refine ⟨sortStage_pairwise _, hperm, ?_,
    hperm.length_eq.trans (List.length_map _ _)⟩
  · rw [hperm.mem_iff, mem_groupStage]
    constructor
    · rintro ⟨k', hk', heq⟩
      have h1 : k = k' ∧ (n : Int) = (s.docs.countP fun d => outcomeOf d == k') := by
        simpa [mkGroup] using heq
      obtain ⟨rfl, h2⟩ := h1
      exact ⟨hk', by exact_mod_cast h2⟩
    · rintro ⟨hk, rfl⟩
      exact ⟨k, hk, rfl⟩

/-- A store matching the spec's aggregation example: outcome types
Adoption ×3 and Transfer ×1. -/
def outcomeStore : Store :=
  ⟨[[("animal_id", Value.int 1), ("outcome_type", Value.str "Adoption")],
    [("animal_id", Value.int 2), ("outcome_type", Value.str "Transfer")],
    [("animal_id", Value.int 3), ("outcome_type", Value.str "Adoption")],
    [("animal_id", Value.int 4), ("outcome_type", Value.str "Adoption")]], 4⟩

/-- Witness for C7: Adoption (3) sorts before Transfer (1). -/
theorem outcome_counts_grouped_sorted_witness :
    get_outcome_type_counts (some outcomeStore)
      = Except.ok [mkGroup (Value.str "Adoption") 3,
                   mkGroup (Value.str "Transfer") 1] ∧
    (List.Pairwise (fun a b => countOf b ≤ countOf a)
        [mkGroup (Value.str "Adoption") 3, mkGroup (Value.str "Transfer") 1] ∧
      List.Perm [mkGroup (Value.str "Adoption") 3,
          mkGroup (Value.str "Transfer") 1] (groupStage outcomeStore.docs) ∧
      (mkGroup (Value.str "Adoption") (3 : Nat)
          ∈ [mkGroup (Value.str "Adoption") 3, mkGroup (Value.str "Transfer") 1] ↔
        Value.str "Adoption" ∈ outcomeStore.docs.map outcomeOf ∧
          (3 : Nat) = outcomeStore.docs.countP
            fun d => outcomeOf d == Value.str "Adoption") ∧
      ([mkGroup (Value.str "Adoption") 3,
          mkGroup (Value.str "Transfer") 1] : List Doc).length
        = (outcomeStore.docs.map outcomeOf).dedup.length) :=
  ⟨rfl, outcome_counts_grouped_sorted outcomeStore
    [mkGroup (Value.str "Adoption") 3, mkGroup (Value.str "Transfer") 1]
    (Value.str "Adoption") 3 rfl⟩

/-- **C10.** Every group returned by `get_outcome_type_counts` is a
mapping with exactly the two keys `_id` (holding the group's
`outcome_type` value) and `count` (holding the group's record count) — so
the identity-field-stripping guarantee of `read` does not extend to the
aggregation results. -/
theorem outcome_groups_expose_internal_id (s : Store) (gs : List Doc)
    (g : Doc) (h : get_outcome_type_counts (some s) = Except.ok gs)
    (hg : g ∈ gs) :
    g.map Prod.fst = ["_id", "count"] ∧
    ∃ k, k ∈ s.docs.map outcomeOf ∧
      g = [("_id", k),
           ("count", Value.int (s.docs.countP fun d => outcomeOf d == k))] ∧
      g.lookup "_id" = some k := by
  have hgs : gs = sortStage (groupStage s.docs) := by
    simpa [get_outcome_type_counts, ensureConnection] using h.symm
  subst hgs
  have hmem : g ∈ groupStage s.docs :=
    (sortStage_perm _).mem_iff.1 hg
  obtain ⟨k, hk, rfl⟩ := (mem_groupStage _ _).1 hmem
  exact ⟨rfl, k, hk, rfl, rfl⟩

/-- Witness for C10 on the aggregation-example store. -/
theorem outcome_groups_expose_internal_id_witness :
    get_outcome_type_counts (some outcomeStore)
      = Except.ok [mkGroup (Value.str "Adoption") 3,
                   mkGroup (Value.str "Transfer") 1] ∧
    mkGroup (Value.str "Adoption") 3
      ∈ [mkGroup (Value.str "Adoption") 3, mkGroup (Value.str "Transfer") 1] ∧
    ((mkGroup (Value.str "Adoption") 3).map Prod.fst = ["_id", "count"] ∧
      ∃ k, k ∈ outcomeStore.docs.map outcomeOf ∧
        mkGroup (Value.str "Adoption") 3
          = [("_id", k),
             ("count", Value.int (outcomeStore.docs.countP
               fun d => outcomeOf d == k))] ∧
        (mkGroup (Value.str "Adoption") 3).lookup "_id" = some k) :=
  ⟨rfl, by decide,
    outcome_groups_expose_internal_id outcomeStore
      [mkGroup (Value.str "Adoption") 3, mkGroup (Value.str "Transfer") 1]
      (mkGroup (Value.str "Adoption") 3) rfl (by decide)⟩

/-- Helper: a field just set reads back (append case needs the key absent). -/
lemma lookup_map_setField_isSome (k : String) (v : Value) :
    ∀ d : Doc, d.lookup k ≠ none →
      (d.map fun kv => if kv.1 = k then (k, v) else kv).lookup k = some v := by
  intro d
  induction d with
  | nil => intro h; exact absurd rfl h
  | cons a rest ih =>
    intro h
    obtain ⟨a1, a2⟩ := a
    by_cases ha : a1 = k
    · subst ha
      simp [List.lookup_cons_self]
    · have hk : (k == a1) = false := by
        simp only [beq_eq_false_iff_ne, ne_eq]
        exact fun he => ha he.symm
      rw [List.lookup_cons] at h
      simp only [hk] at h
      simp only [List.map_cons, if_neg ha, List.lookup_cons, hk]
      exact ih h

/-- Helper: `setField` makes the listed field hold the listed value. -/
lemma lookup_setField_self (d : Doc) (k : String) (v : Value) :
    (setField d k v).lookup k = some v := by
  unfold setField
  by_cases h : d.lookup k = none
  · rw [if_pos h, List.lookup_append, h, Option.none_or]
    exact List.lookup_cons_self
  · rw [if_neg h]
    exact lookup_map_setField_isSome k v d h

/-- Helper: replacing occurrences of one key does not affect other keys. -/
lemma lookup_map_setField_other (k k2 : String) (v : Value) (hne : k2 ≠ k)
    (d : Doc) :
    (d.map fun kv => if kv.1 = k then (k, v) else kv).lookup k2
      = d.lookup k2 := by
  induction d with
  | nil => rfl
  | cons a rest ih =>
    obtain ⟨a1, a2⟩ := a
    by_cases ha : a1 = k
    · subst ha
      have hk2 : (k2 == a1) = false := by
        simpa [beq_eq_false_iff_ne, ne_eq] using hne
      simp only [List.map_cons, List.lookup_cons, hk2]
      simpa [List.lookup_cons, hk2] using ih
    · simp only [List.map_cons, if_neg ha, List.lookup_cons]
      cases hk2a : (k2 == a1)
      · exact ih
      · rfl

/-- Helper: `setField` leaves other fields untouched. -/
lemma lookup_setField_other (d : Doc) (k k2 : String) (v : Value)
    (hne : k2 ≠ k) :
    (setField d k v).lookup k2 = d.lookup k2 := by
  have hk2 : (k2 == k) = false := by
    simpa [beq_eq_false_iff_ne, ne_eq] using hne
  unfold setField
  by_cases h : d.lookup k = none
  · rw [if_pos h, List.lookup_append]
    have h1 : (([(k, v)] : Doc).lookup k2) = none := by
      simp [List.lookup_cons, hk2]
    rw [h1]
    cases d.lookup k2 <;> rfl
  · rw [if_neg h]
    exact lookup_map_setField_other k k2 v hne d

/-- Helper: `setFields` leaves unlisted fields untouched. -/
lemma docValue_setFields_not_mem (k : String) :
    ∀ (nv : Query) (d : Doc), k ∉ nv.map Prod.fst →
      docValue (setFields nv d) k = docValue d k := by
  intro nv
  induction nv with
  | nil => intro d _; rfl
  | cons kv rest ih =>
    intro d hk
    simp only [List.map_cons, List.mem_cons, not_or] at hk
    have h1 : setFields (kv :: rest) d = setFields rest (setField d kv.1 kv.2) :=
      rfl
    rw [h1, ih _ hk.2]
    unfold docValue
    rw [lookup_setField_other d kv.1 k kv.2 hk.1]

/-- Helper: `setFields` overwrites every listed field with its value. -/
lemma docValue_setFields_mem (k : String) (v : Value) :
    ∀ (nv : Query) (d : Doc), (nv.map Prod.fst).Nodup → (k, v) ∈ nv →
      docValue (setFields nv d) k = v := by
  intro nv
  induction nv with
  | nil => intro d _ h; cases h
  | cons kv rest ih =>
    intro d hkeys hkv
    simp only [List.map_cons, List.nodup_cons] at hkeys
    have h1 : setFields (kv :: rest) d = setFields rest (setField d kv.1 kv.2) :=
      rfl
    rcases List.mem_cons.1 hkv with heq | hmem
    · subst heq
      have hk : k ∉ rest.map Prod.fst := by simpa using hkeys.1
      rw [h1, docValue_setFields_not_mem k rest _ hk]
      unfold docValue
      rw [lookup_setField_self]
      rfl
    · rw [h1]
      exact ih _ hkeys.2 hmem

/-- Helper: when `update_many` reports no duplicate-key error, it maps the
`$set` merge over exactly the matching documents and counts exactly the
matched documents it changed. -/
lemma updateManyGo_no_error (q nv : Query) :
    ∀ (docs prev : List Doc), (updateManyGo q nv prev docs).2.2 = false →
      (updateManyGo q nv prev docs).1
          = docs.map (fun e => if matches_ q e then setFields nv e else e) ∧
      (updateManyGo q nv prev docs).2.1
          = docs.countP (fun e => matches_ q e && decide (setFields nv e ≠ e)) := by
  intro docs
  induction docs with
  | nil => intro prev _; exact ⟨rfl, rfl⟩
  | cons d rest ih =>
    intro prev he
    by_cases hm : matches_ q d
    · by_cases hs : setFields nv d = d
      · have hgo : updateManyGo q nv prev (d :: rest)
            = (d :: (updateManyGo q nv (prev ++ [d]) rest).1,
               (updateManyGo q nv (prev ++ [d]) rest).2.1,
               (updateManyGo q nv (prev ++ [d]) rest).2.2) := by
          simp [updateManyGo, hm, hs]
        rw [hgo] at he ⊢
        obtain ⟨h1, h2⟩ := ih (prev ++ [d]) he
        refine ⟨?_, ?_⟩
        · simp only [List.map_cons, if_pos hm, hs, h1]
        · simp only [List.countP_cons, h2, hm, hs]
          simp
      · by_cases herr : idOf (setFields nv d) ≠ idOf d ∧
            (prev ++ rest).any (fun x => idOf x == idOf (setFields nv d))
        · have hgo : updateManyGo q nv prev (d :: rest) = (d :: rest, 0, true) := by
            simp only [updateManyGo, if_pos hm, if_neg hs, if_pos herr]
          rw [hgo] at he
          exact absurd he (by simp)
        · have hgo : updateManyGo q nv prev (d :: rest)
              = (setFields nv d ::
                   (updateManyGo q nv (prev ++ [setFields nv d]) rest).1,
                 (updateManyGo q nv (prev ++ [setFields nv d]) rest).2.1 + 1,
                 (updateManyGo q nv (prev ++ [setFields nv d]) rest).2.2) := by
            simp only [updateManyGo, if_pos hm, if_neg hs, if_neg herr]
          rw [hgo] at he ⊢
          obtain ⟨h1, h2⟩ := ih (prev ++ [setFields nv d]) he
          refine ⟨?_, ?_⟩
          · simp only [List.map_cons, if_pos hm, h1]
          · simp only [List.countP_cons, h2, hm, hs]
            simp [hs]
    · have hgo : updateManyGo q nv prev (d :: rest)
          = (d :: (updateManyGo q nv (prev ++ [d]) rest).1,
             (updateManyGo q nv (prev ++ [d]) rest).2.1,
             (updateManyGo q nv (prev ++ [d]) rest).2.2) := by
        simp [updateManyGo, hm]
      rw [hgo] at he ⊢
      obtain ⟨h1, h2⟩ := ih (prev ++ [d]) he
      refine ⟨?_, ?_⟩
      · simp only [List.map_cons, if_neg hm, h1]
      · simp only [List.countP_cons, h2]
        simp [hm]

/-- **C4 counterexample.**  The claim fails as universally stated: setting
`animal_id` of the matched dog record to the cat's `animal_id` value
violates the unique index, so `update` returns 0 and modifies nothing —
although exactly one record matched and the merge would have changed it
(the claim asserts the merge is applied and the exact matched-and-modified
count, here 1, is returned). -/
theorem update_unique_violation_counterexample :
    update (some sampleStore) [("animal_type", Value.str "Dog")]
        [("animal_id", Value.int 2)] = Except.ok (0, some sampleStore) ∧
    (sampleStore.docs.countP fun e =>
        matches_ [("animal_type", Value.str "Dog")] e &&
          decide (setFields [("animal_id", Value.int 2)] e ≠ e)) = 1 ∧
    dogDoc ∈ sampleStore.docs ∧
    matches_ [("animal_type", Value.str "Dog")] dogDoc = true ∧
    docValue (setFields [("animal_id", Value.int 2)] dogDoc) "animal_id"
      = Value.int 2 ∧
    docValue dogDoc "animal_id" = Value.int 1 :=
  ⟨rfl, by decide, by decide, by decide, by decide, by decide⟩

/-- **C4 (amended).**  For every connected store, filter mapping and
mapping of new values, provided applying the new values triggers no
store-level duplicate-key failure on the `animal_id` unique index,
`update` applies the set-semantics merge to exactly the records matching
the filter (listed fields overwritten, unlisted fields untouched,
non-matching records untouched) and returns the exact count of
matched-and-modified records; when the uniqueness constraint is violated
it returns 0. -/
theorem update_set_semantics_amended (s : Store) (q nv : Query) (d : Doc)
    (k k2 : String) (v : Value)
    (he : (updateManyGo q nv [] s.docs).2.2 = false)
    (hkeys : (nv.map Prod.fst).Nodup)
    (hkv : (k, v) ∈ nv)
    (hk2 : k2 ∉ nv.map Prod.fst) :
    update (some s) q nv
      = Except.ok
          (s.docs.countP fun e => matches_ q e && decide (setFields nv e ≠ e),
           some ⟨s.docs.map fun e => if matches_ q e then setFields nv e else e,
                 s.nextOid⟩) ∧
    docValue (setFields nv d) k = v ∧
    docValue (setFields nv d) k2 = docValue d k2 := by
  obtain ⟨h1, h2⟩ := updateManyGo_no_error q nv s.docs [] he
  refine ⟨?_, docValue_setFields_mem k v nv d hkeys hkv,
    docValue_setFields_not_mem k2 nv d hk2⟩
  have hu : update (some s) q nv
      = Except.ok
          (if (updateManyGo q nv [] s.docs).2.2 then 0
           else (updateManyGo q nv [] s.docs).2.1,
           some ⟨(updateManyGo q nv [] s.docs).1, s.nextOid⟩) := rfl
  rw [hu, he, h1, h2]
  simp

/-- Witness for the amended C4: relabel every dog's breed. -/
theorem update_set_semantics_amended_witness :
    (updateManyGo [("animal_type", Value.str "Dog")]
        [("breed", Value.str "Labrador")] [] sampleStore.docs).2.2 = false ∧
    ((([("breed", Value.str "Labrador")] : Query).map Prod.fst).Nodup ∧
      ("breed", Value.str "Labrador")
        ∈ ([("breed", Value.str "Labrador")] : Query) ∧
      "animal_type" ∉ (([("breed", Value.str "Labrador")] : Query).map Prod.fst)) ∧
    (update (some sampleStore) [("animal_type", Value.str "Dog")]
        [("breed", Value.str "Labrador")]
      = Except.ok
          (sampleStore.docs.countP fun e =>
             matches_ [("animal_type", Value.str "Dog")] e &&
               decide (setFields [("breed", Value.str "Labrador")] e ≠ e),
           some ⟨sampleStore.docs.map fun e =>
                   if matches_ [("animal_type", Value.str "Dog")] e
                   then setFields [("breed", Value.str "Labrador")] e else e,
                 sampleStore.nextOid⟩) ∧
      docValue (setFields [("breed", Value.str "Labrador")] dogDoc) "breed"
        = Value.str "Labrador" ∧
      docValue (setFields [("breed", Value.str "Labrador")] dogDoc) "animal_type"
        = docValue dogDoc "animal_type") :=
  ⟨by decide, ⟨by decide, by decide, by decide⟩,
    update_set_semantics_amended sampleStore
      [("animal_type", Value.str "Dog")] [("breed", Value.str "Labrador")]
      dogDoc "breed" "animal_type" (Value.str "Labrador")
      (by decide) (by decide) (by decide) (by decide)⟩

/-- Helper: stamping a fresh `_id` does not change the `animal_id` key. -/
lemma idOf_addOid (n : Nat) (d : Doc) : idOf (addOid n d) = idOf d := by
  unfold addOid
  by_cases h : d.lookup "_id" = none
  · rw [if_pos h]
    show docValue (("_id", Value.oid n) :: d) "animal_id" = docValue d "animal_id"
    unfold docValue
    rw [List.lookup_cons]
    have hb : (("animal_id" : String) == "_id") = false := by decide
    rw [hb]
  · rw [if_neg h]

/-- Helper: stamping a fresh `_id` is invisible after the projection. -/
lemma stripId_addOid (n : Nat) (d : Doc) : stripId (addOid n d) = stripId d := by
  unfold addOid
  by_cases h : d.lookup "_id" = none
  · rw [if_pos h]
    show stripId (("_id", Value.oid n) :: d) = stripId d
    unfold stripId
    rw [List.filter_cons]
    simp
  · rw [if_neg h]

/-- Helper: a successful `create` inserted the stamped document after an
index check that found no duplicate `animal_id`. -/
lemma create_ok_true (s : Store) (data : Doc) (st' : Option Store)
    (h : create (some s) data = Except.ok (true, st')) :
    data ≠ [] ∧
    (s.docs.any fun e => idOf e == idOf (addOid s.nextOid data)) = false ∧
    st' = some ⟨s.docs ++ [addOid s.nextOid data], s.nextOid + 1⟩ := by
  by_cases hd : data = []
  · have hc : create (some s) data = Except.error Err.valueError := by
      simp [create, hd]
    rw [hc] at h
    exact absurd h (by simp)
  · by_cases hany : (s.docs.any fun e => idOf e == idOf (addOid s.nextOid data)) = true
    · have hc : create (some s) data = Except.ok (false, some s) := by
        simp [create, hd, ensureConnection, insertOne, hany]
      rw [hc] at h
      simp only [Except.ok.injEq, Prod.mk.injEq] at h
      exact absurd h.1 (by simp)
    · have hc : create (some s) data
          = Except.ok (true,
              some ⟨s.docs ++ [addOid s.nextOid data], s.nextOid + 1⟩) := by
        simp [create, hd, ensureConnection, insertOne, hany]
      rw [hc] at h
      simp only [Except.ok.injEq, Prod.mk.injEq, true_and] at h
      exact ⟨hd, eq_false_of_ne_true hany, h.symm⟩

/-- Helper: `update_many` preserves `animal_id` uniqueness across the
whole collection (processed prefix plus remaining suffix). -/
lemma updateManyGo_preserves_unique (q nv : Query) :
    ∀ (docs prev : List Doc), uniqueIds (prev ++ docs) →
      uniqueIds (prev ++ (updateManyGo q nv prev docs).1) := by
  intro docs
  induction docs with
  | nil => intro prev h; exact h
  | cons d rest ih =>
    intro prev hu
    by_cases hm : matches_ q d
    · by_cases hs : setFields nv d = d
      · have hgo : (updateManyGo q nv prev (d :: rest)).1
            = d :: (updateManyGo q nv (prev ++ [d]) rest).1 := by
          simp [updateManyGo, hm, hs]
        rw [hgo]
        have h1 : uniqueIds ((prev ++ [d]) ++ rest) := by
          simpa [List.append_assoc] using hu
        have h2 := ih (prev ++ [d]) h1
        simpa [List.append_assoc] using h2
      · by_cases herr : idOf (setFields nv d) ≠ idOf d ∧
            (prev ++ rest).any (fun x => idOf x == idOf (setFields nv d))
        · have hgo : (updateManyGo q nv prev (d :: rest)).1 = d :: rest := by
            simp only [updateManyGo, if_pos hm, if_neg hs, if_pos herr]
          rw [hgo]
          exact hu
        · have hgo : (updateManyGo q nv prev (d :: rest)).1
              = setFields nv d ::
                  (updateManyGo q nv (prev ++ [setFields nv d]) rest).1 := by
            simp only [updateManyGo, if_pos hm, if_neg hs, if_neg herr]
          rw [hgo]
          have hmid : uniqueIds (prev ++ setFields nv d :: rest) := by
            rcases not_and_or.1 herr with hid | hany
            · push_neg at hid
              unfold uniqueIds at hu ⊢
              rw [List.map_append, List.map_cons, hid]
              rw [List.map_append, List.map_cons] at hu
              exact hu
            · have hnotin : idOf (setFields nv d)
                  ∉ (prev.map idOf) ++ (rest.map idOf) := by
                intro hmem
                rw [← List.map_append] at hmem
                obtain ⟨x, hx, hxe⟩ := List.mem_map.1 hmem
                exact hany (List.any_eq_true.2 ⟨x, hx, by simp [hxe]⟩)
              unfold uniqueIds at hu ⊢
              rw [List.map_append, List.map_cons] at hu ⊢
              rw [List.nodup_middle] at hu ⊢
              rw [List.nodup_cons] at hu ⊢
              exact ⟨hnotin, hu.2⟩
          have h2 := ih (prev ++ [setFields nv d])
            (by simpa [List.append_assoc] using hmid)
          simpa [List.append_assoc] using h2
    · have hgo : (updateManyGo q nv prev (d :: rest)).1
          = d :: (updateManyGo q nv (prev ++ [d]) rest).1 := by
        simp [updateManyGo, hm]
      rw [hgo]
      have h1 : uniqueIds ((prev ++ [d]) ++ rest) := by
        simpa [List.append_assoc] using hu
      have h2 := ih (prev ++ [d]) h1
      simpa [List.append_assoc] using h2

/-- Helper: `create` preserves `animal_id` uniqueness. -/
lemma create_preserves_unique (t : Store) (data : Doc) (b : Bool)
    (st2 : Option Store) (ht : uniqueIds t.docs)
    (h : create (some t) data = Except.ok (b, st2)) :
    uniqueIdsOpt st2 := by
  by_cases hd : data = []
  · have hc : create (some t) data = Except.error Err.valueError := by
      simp [create, hd]
    rw [hc] at h
    exact absurd h (by simp)
  · by_cases hany : (t.docs.any fun e => idOf e == idOf (addOid t.nextOid data)) = true
    · have hc : create (some t) data = Except.ok (false, some t) := by
        simp [create, hd, ensureConnection, insertOne, hany]
      rw [hc] at h
      simp only [Except.ok.injEq, Prod.mk.injEq] at h
      rw [← h.2]
      exact ht
    · have hc : create (some t) data
          = Except.ok (true,
              some ⟨t.docs ++ [addOid t.nextOid data], t.nextOid + 1⟩) := by
        simp [create, hd, ensureConnection, insertOne, hany]
      rw [hc] at h
      simp only [Except.ok.injEq, Prod.mk.injEq] at h
      rw [← h.2]
      show uniqueIds (t.docs ++ [addOid t.nextOid data])
      unfold uniqueIds at ht ⊢
      rw [List.map_append]
      refine List.Nodup.append ht (List.nodup_singleton _) ?_
      intro a ha hb
      simp only [List.map_cons, List.map_nil, List.mem_singleton] at hb
      subst hb
      obtain ⟨x, hx, hxe⟩ := List.mem_map.1 ha
      exact hany (List.any_eq_true.2 ⟨x, hx, by simp [hxe]⟩)

/-- Helper: `update` preserves `animal_id` uniqueness. -/
lemma update_preserves_unique (t : Store) (q nv : Query) (n : Nat)
    (st2 : Option Store) (ht : uniqueIds t.docs)
    (h : update (some t) q nv = Except.ok (n, st2)) :
    uniqueIdsOpt st2 := by
  have hc : update (some t) q nv
      = Except.ok
          (if (updateManyGo q nv [] t.docs).2.2 then 0
           else (updateManyGo q nv [] t.docs).2.1,
           some ⟨(updateManyGo q nv [] t.docs).1, t.nextOid⟩) := rfl
  rw [hc] at h
  simp only [Except.ok.injEq, Prod.mk.injEq] at h
  rw [← h.2]
  show uniqueIds (updateManyGo q nv [] t.docs).1
  have h2 := updateManyGo_preserves_unique q nv t.docs [] (by simpa using ht)
  simpa using h2

/-- Helper: `delete` preserves `animal_id` uniqueness. -/
lemma delete_preserves_unique (t : Store) (q : Query) (n : Nat)
    (st2 : Option Store) (ht : uniqueIds t.docs)
    (h : delete (some t) q = Except.ok (n, st2)) :
    uniqueIdsOpt st2 := by
  have hc : delete (some t) q
      = Except.ok (t.docs.countP (matches_ q),
          some ⟨t.docs.filter fun e => !matches_ q e, t.nextOid⟩) := rfl
  rw [hc] at h
  simp only [Except.ok.injEq, Prod.mk.injEq] at h
  rw [← h.2]
  show uniqueIds (t.docs.filter fun e => !matches_ q e)
  unfold uniqueIds at ht ⊢
  exact List.Nodup.sublist (List.Sublist.map idOf (List.filter_sublist _)) ht

/-- **C6.** After a successful `create`, a second `create` with a record
carrying the same `animal_id` value fails (returns false) on the
uniqueness constraint and leaves the state unchanged; the first record
remains readable; and `animal_id` uniqueness across all stored records is
preserved by every operation (`create`, `update`, `delete`; `read` and
the aggregation do not mutate the store). -/
theorem animal_id_uniqueness_enforced (s s1 t : Store) (d1 d2 data : Doc)
    (q nv : Query) (b2 : Bool) (st2 : Option Store) (n3 : Nat)
    (st3 : Option Store) (n4 : Nat) (st4 : Option Store)
    (hu : uniqueIds s.docs)
    (hid : idOf d2 = idOf d1)
    (h2 : d2 ≠ [])
    (hcr : create (some s) d1 = Except.ok (true, some s1))
    (ht : uniqueIds t.docs)
    (hc2 : create (some t) data = Except.ok (b2, st2))
    (hu3 : update (some t) q nv = Except.ok (n3, st3))
    (hd4 : delete (some t) q = Except.ok (n4, st4)) :
    create (some s1) d2 = Except.ok (false, some s1) ∧
    (∃ rs, read (some s1) none = Except.ok rs ∧ stripId d1 ∈ rs) ∧
    uniqueIds s1.docs ∧
    uniqueIdsOpt st2 ∧ uniqueIdsOpt st3 ∧ uniqueIdsOpt st4 := by
  obtain ⟨hd1, hany1, hs1⟩ := create_ok_true s d1 (some s1) hcr
  have hs1' : s1 = ⟨s.docs ++ [addOid s.nextOid d1], s.nextOid + 1⟩ := by
    simpa using hs1
  subst hs1'
  refine ⟨?_, ?_, ?_, create_preserves_unique t data b2 st2 ht hc2,
    update_preserves_unique t q nv n3 st3 ht hu3,
    delete_preserves_unique t q n4 st4 ht hd4⟩
  · have hany2 : (((⟨s.docs ++ [addOid s.nextOid d1], s.nextOid + 1⟩ :
        Store).docs).any
          fun e => idOf e == idOf (addOid (s.nextOid + 1) d2)) = true := by
      refine List.any_eq_true.2 ⟨addOid s.nextOid d1, ?_, ?_⟩
      · simp
      · rw [beq_iff_eq, idOf_addOid, idOf_addOid, hid]
    simp [create, h2, ensureConnection, insertOne, hany2]
  · refine ⟨find_ ⟨s.docs ++ [addOid s.nextOid d1], s.nextOid + 1⟩ [], rfl, ?_⟩
    rw [find_nil]
    show stripId d1 ∈ (s.docs ++ [addOid s.nextOid d1]).map stripId
    rw [List.map_append]
    refine List.mem_append_right _ ?_
    simp [stripId_addOid]
  · exact create_preserves_unique s d1 true _ hu hcr

/-- Witness for C6: duplicate `animal_id` 1 rejected on the second insert;
uniqueness preserved by concrete `create`/`update`/`delete` runs. -/
theorem animal_id_uniqueness_enforced_witness :
    uniqueIds (⟨[], 0⟩ : Store).docs ∧
    idOf [("animal_id", Value.int 1), ("breed", Value.str "Mix")]
      = idOf [("animal_id", Value.int 1)] ∧
    create (some (⟨[], 0⟩ : Store)) [("animal_id", Value.int 1)]
      = Except.ok (true,
          some ⟨[[("_id", Value.oid 0), ("animal_id", Value.int 1)]], 1⟩) ∧
    uniqueIds sampleStore.docs ∧
    (create (some (⟨[[("_id", Value.oid 0), ("animal_id", Value.int 1)]], 1⟩ :
          Store)) [("animal_id", Value.int 1), ("breed", Value.str "Mix")]
        = Except.ok (false,
            some ⟨[[("_id", Value.oid 0), ("animal_id", Value.int 1)]], 1⟩) ∧
      (∃ rs, read (some (⟨[[("_id", Value.oid 0), ("animal_id", Value.int 1)]],
            1⟩ : Store)) none = Except.ok rs ∧
        stripId [("animal_id", Value.int 1)] ∈ rs) ∧
      uniqueIds (⟨[[("_id", Value.oid 0), ("animal_id", Value.int 1)]], 1⟩ :
        Store).docs ∧
      uniqueIdsOpt (some ⟨[dogDoc, catDoc,
        [("_id", Value.oid 2), ("animal_id", Value.int 5)]], 3⟩) ∧
      uniqueIdsOpt (some ⟨[[("_id", Value.oid 0), ("animal_id", Value.int 1),
        ("animal_type", Value.str "Dog"), ("breed", Value.str "Labrador")],
        catDoc], 2⟩) ∧
      uniqueIdsOpt (some ⟨[catDoc], 2⟩)) :=
  ⟨by unfold uniqueIds; decide, by decide, rfl,
    by unfold uniqueIds; decide,
    animal_id_uniqueness_enforced (⟨[], 0⟩ : Store)
      (⟨[[("_id", Value.oid 0), ("animal_id", Value.int 1)]], 1⟩ : Store)
      sampleStore
      [("animal_id", Value.int 1)]
      [("animal_id", Value.int 1), ("breed", Value.str "Mix")]
      [("animal_id", Value.int 5)]
      [("animal_type", Value.str "Dog")] [("breed", Value.str "Labrador")]
      true
      (some ⟨[dogDoc, catDoc, [("_id", Value.oid 2),
        ("animal_id", Value.int 5)]], 3⟩)
      1
      (some ⟨[[("_id", Value.oid 0), ("animal_id", Value.int 1),
        ("animal_type", Value.str "Dog"), ("breed", Value.str "Labrador")],
        catDoc], 2⟩)
      1 (some ⟨[catDoc], 2⟩)
      (by unfold uniqueIds; decide) (by decide) (by decide) rfl
      (by unfold uniqueIds; decide) rfl rfl rfl⟩
